import Mathlib

/-!
Verification of the phone-number billing engine (`phone_numbers.py`).

This file embeds the core of `src/phone_numbers.py` in Lean 4: number
classification (`PhoneNumber.from_string`), call-record parsing and
allowance consumption (`PhoneCall.__init__`, embedded as `PhoneCall.init`),
per-call cost computation (`PhoneCall.cost`), CSV-record handling
(`PhoneCall.from_csv`), and the aggregation/selection logic
(`findMostExpensiveNumber`).

Modelling conventions:
* Python strings are Lean `String`s; character-level operations
  (`str.replace` with a one-character pattern, slicing, `str.split`,
  `startswith`) are defined over the underlying `List Char`.
* Python `int` is Lean `Int`.
* Python runtime exceptions are made explicit: fallible operations return
  `Option`/`Except PyError`. `PyError` distinguishes the repository's own
  typed `CallParseError` from the untyped built-in exceptions
  (`ValueError`, `IndexError`, `AttributeError`) that can escape the code.
* The process-wide mutable allowance counters become explicit state
  (`Allowances`) threaded through call construction.
-/

deriving instance DecidableEq for Except

namespace PhoneNumbers

/-- The exceptions the embedded code can raise.  `callParseError` models the
repository's own `CallParseError` class; the remaining constructors model
the Python built-in exceptions that can escape the code uncaught (the
message strings carried by the Python exceptions are not modelled). -/
inductive PyError where
  | callParseError
  | valueError
  | indexError
  | attributeError
deriving DecidableEq, Repr

/-! ## Character-list utilities (Python string operations) -/

/-- Python `str.replace` for a one-character pattern on character lists:
every occurrence of the character `pat` is replaced by the character list
`rep` (the source uses it with patterns `'+'` and `'Z'`). -/
def replaceChar (pat : Char) (rep : List Char) : List Char → List Char
  | [] => []
  | c :: t => if c = pat then rep ++ replaceChar pat rep t else c :: replaceChar pat rep t

/-- Python `str.replace` with a one-character pattern, on `String`. -/
def pyReplace (s : String) (pat : Char) (rep : String) : String :=
  ⟨replaceChar pat rep.data s.data⟩

/-- Python `str.startswith` on character lists. -/
def listStarts : List Char → List Char → Bool
  | _, [] => true
  | [], _ :: _ => false
  | a :: s, b :: p => a = b && listStarts s p

/-- Python `str.split(sep)` for a one-character separator, on character
lists.  Like Python's, it always returns at least one (possibly empty)
piece. -/
def splitChar (sep : Char) : List Char → List (List Char)
  | [] => [[]]
  | c :: t =>
    if c = sep then [] :: splitChar sep t
    else
      match splitChar sep t with
      | [] => [[c]]
      | h :: r => (c :: h) :: r

/-- Python `str.split(sep)` for a one-character separator, on `String`. -/
def pySplit (s : String) (sep : Char) : List String :=
  (splitChar sep s.data).map fun l => ⟨l⟩

/-! ## NumberClassifier (`PhoneNumber.from_string` and the subclasses) -/

/-- The closed set of `PhoneNumber` subclasses of the source
(`InternationalNumber`, `LandlineNumber`, `MobileNumber`, `FreeNumber`,
`InvalidNumber`). -/
inductive NumberClass where
  | International
  | Landline
  | Mobile
  | Free
  | Invalid
deriving DecidableEq, Repr

/-- The `cost_per_minute` class attribute of each `PhoneNumber` subclass. -/
def cost_per_minute : NumberClass → Int
  | .International => 80
  | .Landline => 15
  | .Mobile => 30
  | .Free => 0
  | .Invalid => 0

/-- The `connection_charge` class attribute of each `PhoneNumber` subclass. -/
def connection_charge : NumberClass → Int
  | .International => 50
  | .Landline => 0
  | .Mobile => 0
  | .Free => 0
  | .Invalid => 0

/-- The `off_peak_divider` class attribute of each `PhoneNumber` subclass
(`None` on the superclass, overridden by `LandlineNumber` and
`MobileNumber`). -/
def off_peak_divider : NumberClass → Option Int
  | .Landline => some 3
  | .Mobile => some 3
  | _ => none

/-- A constructed `PhoneNumber` instance: its subclass together with the
normalized digit string stored by `__init__`. -/
structure PhoneNumber where
  cls : NumberClass
  number : String
deriving DecidableEq, Repr

/-- The two normalization steps at the top of `PhoneNumber.from_string`:
replace every `+` with `00`, then collapse a leading `0044` to `0`. -/
def normalize (number : String) : String :=
  let n := pyReplace number '+' "00"
  if listStarts n.data "0044".data then ⟨'0' :: n.data.drop 4⟩ else n

/-- The classification cascade of `PhoneNumber.from_string`, applied to the
already-normalized string.  Returns `none` when the Python code raises
`IndexError`: in the mobile branch it evaluates `number[2]`, which is out of
range when the normalized number is exactly `"07"`. -/
def classifyNormalized (number : String) : Option PhoneNumber :=
  if number.data.take 2 = "00".data then some ⟨.International, number⟩
  else if number.data.take 2 = "01".data ∨ number.data.take 2 = "02".data then
    some ⟨.Landline, number⟩
  else if number.data.take 3 = "080".data then some ⟨.Free, number⟩
  else if number.data.take 2 = "07".data then
    match number.data.get? 2 with
    | none => none
    | some c =>
      if c ≠ '6' ∨ number.data.take 5 = "07624".data then some ⟨.Mobile, number⟩
      else some ⟨.Invalid, number⟩
  else some ⟨.Invalid, number⟩

/-- Full `PhoneNumber.from_string`: normalize, then classify.  `none` models an
uncaught `IndexError`. -/
def PhoneNumber.from_string (number : String) : Option PhoneNumber :=
  classifyNormalized (normalize number)

/-! ## Python `int()` and duration parsing -/

/-- The digit part of a Python integer literal accepted by `int(str)`:
a nonempty run of decimal digits in which single underscores may appear
between digits. -/
def isPyDigits : List Char → Bool
  | [] => false
  | [c] => c.isDigit
  | c :: d :: t =>
    if d = '_' then c.isDigit && isPyDigits t
    else c.isDigit && isPyDigits (d :: t)

/-- Numeric value of a digit run, skipping grouping underscores. -/
def digitsVal (l : List Char) : Nat :=
  l.foldl (fun a c => if c = '_' then a else a * 10 + (c.toNat - '0'.toNat)) 0

/-- Python `str.strip()`: remove leading and trailing whitespace. -/
def stripWs (l : List Char) : List Char :=
  ((l.dropWhile Char.isWhitespace).reverse.dropWhile Char.isWhitespace).reverse

/-- The stripped core of a Python integer literal: optional single sign,
then digits. -/
def pyIntCore : List Char → Option Int
  | [] => none
  | c :: rest =>
    if c = '+' then if isPyDigits rest then some (digitsVal rest : Int) else none
    else if c = '-' then if isPyDigits rest then some (-(digitsVal rest : Int)) else none
    else if isPyDigits (c :: rest) then some (digitsVal (c :: rest) : Int) else none

/-- Python `int(str)`: optional surrounding whitespace, optional single
sign, then decimal digits (with single grouping underscores allowed
between digits).  `none` models `ValueError`.  (Non-ASCII decimal digits,
also accepted by CPython, are not modelled; no input of this repository
uses them.) -/
def pyInt (s : String) : Option Int :=
  pyIntCore (stripWs s.data)

/-- The duration `try:` block of `PhoneCall.__init__`:
`minutes, seconds = duration.split(':')`, convert both with `int`, and add
one started minute when `seconds` is truthy (nonzero).  `none` models any
exception inside the block (wrong number of pieces, unparseable
component), which the source turns into `CallParseError`. -/
def parseDuration (duration : String) : Option Int :=
  match pySplit duration ':' with
  | [m, s] =>
    match pyInt m, pyInt s with
    | some minutes, some seconds =>
      some (if seconds ≠ 0 then minutes + 1 else minutes)
    | _, _ => none
  | _ => none

/-! ## Timestamps (`datetime.datetime.fromisoformat`) -/

/-- A Python `datetime.time` value: hour, minute, second, microsecond. -/
structure PyTime where
  hour : Nat
  minute : Nat
  second : Nat
  micro : Nat
deriving DecidableEq, Repr

/-- Python comparison of `datetime.time` values: lexicographic on
(hour, minute, second, microsecond). -/
def timeLt (a b : PyTime) : Prop :=
  a.hour < b.hour ∨ (a.hour = b.hour ∧ (a.minute < b.minute ∨ (a.minute = b.minute ∧
    (a.second < b.second ∨ (a.second = b.second ∧ a.micro < b.micro)))))

instance (a b : PyTime) : Decidable (timeLt a b) := by
  unfold timeLt; infer_instance

/-- Microseconds since midnight. -/
def PyTime.toKey (t : PyTime) : Nat :=
  ((t.hour * 60 + t.minute) * 60 + t.second) * 1000000 + t.micro

/-- In-range time-of-day fields, as guaranteed by the timestamp parser. -/
def PyTime.Valid (t : PyTime) : Prop :=
  t.hour < 24 ∧ t.minute < 60 ∧ t.second < 60 ∧ t.micro < 1000000

instance (t : PyTime) : Decidable t.Valid := by
  unfold PyTime.Valid; infer_instance

/-- A Python `datetime.datetime` value as used by the source: a calendar
date plus a time-of-day.  The UTC-offset part of an aware datetime is
validated during parsing but not stored, because the only use the source
makes of the value is `start_time.time()`, which drops the offset. -/
structure PyDateTime where
  year : Nat
  month : Nat
  day : Nat
  tod : PyTime
deriving DecidableEq, Repr

/-- Read exactly `k` decimal digits from the front of `l`. -/
def takeDigits (k : Nat) (l : List Char) : Option (Nat × List Char) :=
  let pre := l.take k
  if pre.length = k ∧ pre.all Char.isDigit then some (digitsVal pre, l.drop k)
  else none

/-- Expect the character `c` at the front of `l`. -/
def expectChar (c : Char) : List Char → Option (List Char)
  | [] => none
  | x :: t => if x = c then some t else none

/-- Fractional-second part: `.` followed by one to six digits, scaled to
microseconds. -/
def parseFraction (l : List Char) : Option (Nat × List Char) :=
  match l with
  | '.' :: r =>
    let ds := r.takeWhile Char.isDigit
    if 1 ≤ ds.length ∧ ds.length ≤ 6 then
      some (digitsVal ds * 10 ^ (6 - ds.length), r.drop ds.length)
    else none
  | _ => some (0, l)

/-- UTC-offset part: empty, or a sign followed by `HH:MM`. -/
def parseOffset (l : List Char) : Option Unit :=
  match l with
  | [] => some ()
  | c :: r =>
    if c = '+' ∨ c = '-' then
      match takeDigits 2 r with
      | none => none
      | some (_, r1) =>
        match expectChar ':' r1 with
        | none => none
        | some r2 =>
          match takeDigits 2 r2 with
          | none => none
          | some (_, r3) => if r3 = [] then some () else none
    else none

/-- Time-of-day part `HH:MM:SS[.ffffff]` followed by an optional offset. -/
def parseTimePart (l : List Char) : Option PyTime :=
  match takeDigits 2 l with
  | none => none
  | some (h, r1) =>
    match expectChar ':' r1 with
    | none => none
    | some r2 =>
      match takeDigits 2 r2 with
      | none => none
      | some (mi, r3) =>
        match expectChar ':' r3 with
        | none => none
        | some r4 =>
          match takeDigits 2 r4 with
          | none => none
          | some (se, r5) =>
            match parseFraction r5 with
            | none => none
            | some (us, r6) =>
              match parseOffset r6 with
              | none => none
              | some () =>
                if h ≤ 23 ∧ mi ≤ 59 ∧ se ≤ 59 then some ⟨h, mi, se, us⟩ else none

/-- Python `datetime.datetime.fromisoformat`, modelled for the timestamp shapes
this repository's records can contain: `YYYY-MM-DD`, optionally followed by
a separator character and `HH:MM:SS[.ffffff][±HH:MM]`.  `none` models
`ValueError` (which `PhoneCall.__init__` catches and converts to
`CallParseError`).  The day-of-month is range-checked against 31 rather
than against the exact month length. -/
def fromisoformat (s : String) : Option PyDateTime :=
  match takeDigits 4 s.data with
  | none => none
  | some (y, r1) =>
    match expectChar '-' r1 with
    | none => none
    | some r2 =>
      match takeDigits 2 r2 with
      | none => none
      | some (mo, r3) =>
        match expectChar '-' r3 with
        | none => none
        | some r4 =>
          match takeDigits 2 r4 with
          | none => none
          | some (d, r5) =>
            if ¬ (1 ≤ mo ∧ mo ≤ 12 ∧ 1 ≤ d ∧ d ≤ 31) then none
            else
              match r5 with
              | [] => some ⟨y, mo, d, ⟨0, 0, 0, 0⟩⟩
              | _ :: r6 =>
                match parseTimePart r6 with
                | none => none
                | some t => some ⟨y, mo, d, t⟩

/-! ## Direction, allowances, and `PhoneCall` -/

/-- The `Direction` enum of the source. -/
inductive Direction where
  | INCOMING
  | OUTGOING
deriving DecidableEq, Repr

/-- Python `Direction(value)`: look the string up among the enum values;
`none` models the uncaught `ValueError` the enum constructor raises on any
other string. -/
def Direction.ofValue (s : String) : Option Direction :=
  if s = "INCOMING" then some .INCOMING
  else if s = "OUTGOING" then some .OUTGOING
  else none

/-- The process-wide mutable allowance counters
(`international_allowance`, `landline_mobile_allowance`), made explicit
state. -/
structure Allowances where
  international : Int
  landline_mobile : Int
deriving DecidableEq, Repr

/-- The module-level initial values: 10 international free minutes, 100
landline/mobile free minutes. -/
def initialAllowances : Allowances := ⟨10, 100⟩

/-- A constructed `PhoneCall` object.  `free_minutes` is an `Option`
because the Python constructor assigns the `free_minutes` attribute only
inside the `if self.direction is Direction.OUTGOING:` branch: for incoming
calls the attribute is never set, modelled as `none`. -/
structure PhoneCall where
  number : PhoneNumber
  start_time : PyDateTime
  duration : Int
  direction : Direction
  free_minutes : Option Int
deriving DecidableEq, Repr

/-- The constructor `PhoneCall.__init__`.  The four record fields are parsed in source
order (number classification, start time, duration, direction), then an
outgoing call consumes allowance.  Returns the constructed record together
with the updated allowance counters, or the exception the Python code
raises: `IndexError` from classification, `CallParseError` for a bad start
time or duration, `ValueError` for a bad direction. -/
def PhoneCall.init (number start_time duration direction : String)
    (alw : Allowances) : Except PyError (PhoneCall × Allowances) :=
  match PhoneNumber.from_string number with
  | none => .error .indexError
  | some num =>
    match fromisoformat (pyReplace start_time 'Z' "+00:00") with
    | none => .error .callParseError
    | some st =>
      match parseDuration duration with
      | none => .error .callParseError
      | some dur =>
        match Direction.ofValue direction with
        | none => .error .valueError
        | some dir =>
          if dir = .OUTGOING then
            if num.cls = .International then
              let free := min dur alw.international
              .ok (⟨num, st, dur, dir, some free⟩,
                ⟨alw.international - free, alw.landline_mobile⟩)
            else if num.cls = .Landline ∨ num.cls = .Mobile then
              let free := min dur alw.landline_mobile
              .ok (⟨num, st, dur, dir, some free⟩,
                ⟨alw.international, alw.landline_mobile - free⟩)
            else .ok (⟨num, st, dur, dir, some 0⟩, alw)
          else .ok (⟨num, st, dur, dir, none⟩, alw)

/-- Source `PhoneCall.peak_time_start = datetime.time(8, 0)`. -/
def peak_time_start : PyTime := ⟨8, 0, 0, 0⟩

/-- Source `PhoneCall.peak_time_end = datetime.time(20, 0)`. -/
def peak_time_end : PyTime := ⟨20, 0, 0, 0⟩

/-- The method `PhoneCall.cost(apply_allowance)`.  Incoming calls cost 0; otherwise
the per-started-minute charge plus connection charge, divided (with
Python's flooring `//`) by the off-peak divider when the category has one
and the start time-of-day is strictly outside the peak window.  `none`
models the `AttributeError` that reading the never-assigned
`free_minutes` attribute would raise; it is unreachable for records the
constructor produced, since the attribute is read only for outgoing
calls. -/
def PhoneCall.cost (c : PhoneCall) (apply_allowance : Bool) : Option Int :=
  if c.direction = .INCOMING then some 0
  else
    let chargeable? : Option Int :=
      if apply_allowance then
        match c.free_minutes with
        | some f => some (c.duration - f)
        | none => none
      else some c.duration
    match chargeable? with
    | none => none
    | some chargeable =>
      let base := connection_charge c.number.cls + chargeable * cost_per_minute c.number.cls
      match off_peak_divider c.number.cls with
      | some dv =>
        if timeLt c.start_time.tod peak_time_start ∨ timeLt peak_time_end c.start_time.tod
        then some (Int.fdiv base dv)
        else some base
      | none => some base

/-! ## CSV records and the aggregator (`findMostExpensiveNumber`) -/

/-- Python `line.rstrip('\n')`. -/
def rstripNewline (s : String) : String :=
  ⟨(s.data.reverse.dropWhile fun c => c = '\n').reverse⟩

/-- The classmethod `PhoneCall.from_csv`: strip the trailing newline, split on commas,
require exactly four fields (`CallParseError` otherwise), then construct
the call. -/
def PhoneCall.from_csv (csv_line : String) (alw : Allowances) :
    Except PyError (PhoneCall × Allowances) :=
  match pySplit (rstripNewline csv_line) ',' with
  | [num, start, duration, direction] => PhoneCall.init num start duration direction alw
  | _ => .error .callParseError

/-- One `setdefault`-plus-add step of the aggregation loop: dict insertion
order is modelled by an association list, with a new number appended at
the end and an existing number's total updated in place. -/
def addCost : List (String × Int) → String → Int → List (String × Int)
  | [], key, c => [(key, c)]
  | (k, v) :: t, key, c =>
    if k = key then (k, v + c) :: t else (k, v) :: addCost t key c

/-- The fused record loop of `findMostExpensiveNumber` over
`PhoneCall.from_csv_file`: lines of length `> 1` (Python `len(line) > 1`
on the raw line, trailing newline included) are parsed in order, each
call's cost (allowance applied) is added to the per-number table, and any
exception aborts the whole run. -/
def processLines : List String → Allowances → List (String × Int) →
    Except PyError (List (String × Int))
  | [], _, tbl => .ok tbl
  | line :: rest, alw, tbl =>
    if line.length > 1 then
      match PhoneCall.from_csv line alw with
      | .error e => .error e
      | .ok (c, alw') =>
        match c.cost true with
        | none => .error .attributeError
        | some v => processLines rest alw' (addCost tbl c.number.number v)
    else processLines rest alw tbl

/-- The descending cost comparison of
`sorted(..., key=lambda x: x[1], reverse=True)`. -/
def costGe (a b : String × Int) : Bool := decide (b.2 ≤ a.2)

/-- The selection logic of `findMostExpensiveNumber` after the table is
built: sort the entries by total cost descending, take the first two,
index `[0]` (an uncaught `IndexError` when the table is empty), return
`None` on a zero top total or on a tie, and otherwise the top entry.  The
source wraps the surviving entry in a JSON string with a formatted
currency amount; that serialization is an external sink and the entry
itself (number, total cost in the smallest currency unit) is returned
instead. -/
def selectMostExpensive (tbl : List (String × Int)) :
    Except PyError (Option (String × Int)) :=
  match (List.mergeSort tbl costGe).take 2 with
  | [] => .error .indexError
  | [a] => .ok (if a.2 = 0 then none else some a)
  | a :: b :: _ =>
    .ok (if a.2 = 0 then none else if a.2 = b.2 then none else some a)

/-- Top-level `findMostExpensiveNumber`, over the list of raw lines of the call
log. -/
def findMostExpensiveNumber (lines : List String) :
    Except PyError (Option (String × Int)) :=
  match processLines lines initialAllowances [] with
  | .error e => .error e
  | .ok tbl => selectMostExpensive tbl

/-! ## Helper lemmas about the string primitives -/

theorem replaceChar_append (pat : Char) (rep a b : List Char) :
    replaceChar pat rep (a ++ b) = replaceChar pat rep a ++ replaceChar pat rep b := by
  induction a with
  | nil => simp [replaceChar]
  | cons c t ih => by_cases h : c = pat <;> simp [replaceChar, h, ih]

theorem replaceChar_of_forall_ne (pat : Char) (rep : List Char) (l : List Char)
    (h : ∀ c ∈ l, c ≠ pat) : replaceChar pat rep l = l := by
  induction l with
  | nil => rfl
  | cons c t ih =>
    simp only [replaceChar, if_neg (h c (by simp))]
    rw [ih fun c hc => h c (by simp [hc])]

theorem listStarts_append (p r : List Char) : listStarts (p ++ r) p = true := by
  induction p with
  | nil => cases r <;> rfl
  | cons c t ih => simp [listStarts, ih]

theorem splitChar_of_not_mem (sep : Char) (l : List Char) (h : sep ∉ l) :
    splitChar sep l = [l] := by
  induction l with
  | nil => rfl
  | cons c t ih =>
    have hc : ¬ c = sep := by rintro rfl; exact h (by simp)
    have ht := ih fun hm => h (by simp [hm])
    simp [splitChar, hc, ht]

theorem splitChar_append (sep : Char) (a b : List Char) (h : sep ∉ a) :
    splitChar sep (a ++ sep :: b) = a :: splitChar sep b := by
  induction a with
  | nil => simp [splitChar]
  | cons c t ih =>
    have hc : ¬ c = sep := by rintro rfl; exact h (by simp)
    have ht := ih fun hm => h (by simp [hm])
    simp [splitChar, hc, ht]

theorem isPyDigits_mem : ∀ l, isPyDigits l = true → ∀ c ∈ l, c.isDigit = true ∨ c = '_' := by
  intro l
  induction l using isPyDigits.induct with
  | case1 => intro h; simp [isPyDigits] at h
  | case2 c => intro h x hx; simp [isPyDigits] at h; simp at hx; subst hx; exact Or.inl h
  | case3 c t ih =>
    intro h x hx
    simp [isPyDigits] at h
    rcases hx with _ | ⟨_, hx⟩
    · exact Or.inl h.1
    · rcases hx with _ | ⟨_, hx⟩
      · exact Or.inr rfl
      · exact ih h.2 x hx
  | case4 c d t hne ih =>
    intro h x hx
    simp [isPyDigits, if_neg hne] at h
    rcases hx with _ | ⟨_, hx⟩
    · exact Or.inl h.1
    · exact ih h.2 x hx

theorem mem_stripWs_or (l : List Char) (c : Char) (hc : c ∈ l) :
    c ∈ stripWs l ∨ c.isWhitespace = true := by
  rcases List.mem_append.mp
      ((List.takeWhile_append_dropWhile Char.isWhitespace (l := l)) ▸ hc) with h | h
  · exact Or.inr (List.mem_takeWhile_imp h)
  · have h' : c ∈ (l.dropWhile Char.isWhitespace).reverse := List.mem_reverse.mpr h
    rcases List.mem_append.mp
        ((List.takeWhile_append_dropWhile Char.isWhitespace
          (l := (l.dropWhile Char.isWhitespace).reverse)) ▸ h') with h2 | h2
    · exact Or.inr (List.mem_takeWhile_imp h2)
    · exact Or.inl (List.mem_reverse.mpr h2)

/-- Any character of a string accepted by `pyInt` is whitespace, a sign, a
digit, or a grouping underscore. -/
theorem pyInt_mem (s : String) (n : Int) (h : pyInt s = some n) :
    ∀ c ∈ s.data, c.isWhitespace = true ∨ c = '+' ∨ c = '-' ∨ c.isDigit = true ∨ c = '_' := by
  intro c hc
  rcases mem_stripWs_or s.data c hc with hcore | hws
  · unfold pyInt at h
    rcases hl : stripWs s.data with _ | ⟨c0, rest⟩
    · rw [hl] at h; exact absurd h (by simp [pyIntCore])
    · rw [hl] at h hcore
      simp only [pyIntCore] at h
      by_cases h0 : c0 = '+'
      · rcases hcore with _ | ⟨_, hcr⟩
        · exact Or.inr (Or.inl h0)
        · rw [if_pos h0] at h
          have hd : isPyDigits rest = true := by
            by_contra hd; rw [if_neg hd] at h; exact absurd h (by simp)
          rcases isPyDigits_mem rest hd c hcr with h' | h'
          · exact Or.inr (Or.inr (Or.inr (Or.inl h')))
          · exact Or.inr (Or.inr (Or.inr (Or.inr h')))
      · rw [if_neg h0] at h
        by_cases h1 : c0 = '-'
        · rcases hcore with _ | ⟨_, hcr⟩
          · exact Or.inr (Or.inr (Or.inl h1))
          · rw [if_pos h1] at h
            have hd : isPyDigits rest = true := by
              by_contra hd; rw [if_neg hd] at h; exact absurd h (by simp)
            rcases isPyDigits_mem rest hd c hcr with h' | h'
            · exact Or.inr (Or.inr (Or.inr (Or.inl h')))
            · exact Or.inr (Or.inr (Or.inr (Or.inr h')))
        · rw [if_neg h1] at h
          have hd : isPyDigits (c0 :: rest) = true := by
            by_contra hd; rw [if_neg hd] at h; exact absurd h (by simp)
          rcases isPyDigits_mem (c0 :: rest) hd c hcore with h' | h'
          · exact Or.inr (Or.inr (Or.inr (Or.inl h')))
          · exact Or.inr (Or.inr (Or.inr (Or.inr h')))
  · exact Or.inl hws

/-- A string accepted by `pyInt` contains no `:`; hence joining two such
strings with `:` splits back into exactly those two pieces. -/
theorem pyInt_not_colon (s : String) (n : Int) (h : pyInt s = some n) :
    ':' ∉ s.data := by
  intro hmem
  rcases pyInt_mem s n h ':' hmem with h' | h' | h' | h' | h' <;> simp at h'

theorem pySplit_colon (m s : String) (hm : ':' ∉ m.data) (hs : ':' ∉ s.data) :
    pySplit (m ++ ":" ++ s) ':' = [m, s] := by
  unfold pySplit
  have hdata : (m ++ ":" ++ s).data = m.data ++ ':' :: s.data := by
    show (m.data ++ [':']) ++ s.data = m.data ++ ':' :: s.data
    simp
  rw [hdata, splitChar_append ':' m.data s.data hm, splitChar_of_not_mem ':' s.data hs]
  rfl

/-- Evaluating `parseDuration` on a well-formed `minutes:seconds` string. -/
theorem parseDuration_eq (m s : String) (M S : Int) (hm : pyInt m = some M)
    (hs : pyInt s = some S) :
    parseDuration (m ++ ":" ++ s) = some (if S ≠ 0 then M + 1 else M) := by
  unfold parseDuration
  rw [pySplit_colon m s (pyInt_not_colon m M hm) (pyInt_not_colon s S hs)]
  simp [hm, hs]

/-- Python's lexicographic comparison of in-range `datetime.time` values
agrees with comparison of microseconds-since-midnight. -/
theorem timeLt_iff_toKey (a b : PyTime) (ha : a.Valid) (hb : b.Valid) :
    timeLt a b ↔ a.toKey < b.toKey := by
  obtain ⟨ha1, ha2, ha3, ha4⟩ := ha
  obtain ⟨hb1, hb2, hb3, hb4⟩ := hb
  unfold timeLt PyTime.toKey
  constructor <;> intro h <;> omega

/-! ## Shared concrete fixtures (a valid mobile number and start time,
taken from the source's own test data) -/

def sampleNumber : String := "07882456789"

def sampleMobile : PhoneNumber := ⟨.Mobile, "07882456789"⟩

def sampleStart : String := "2019-08-29T11:28:05.666Z"

def sampleDT : PyDateTime := ⟨2019, 8, 29, ⟨11, 28, 5, 666000⟩⟩

theorem sampleNumber_classifies : PhoneNumber.from_string sampleNumber = some sampleMobile := by
  decide

theorem sampleStart_parses :
    fromisoformat (pyReplace sampleStart 'Z' "+00:00") = some sampleDT := by
  decide

/-- Characters of an all-digit string are never `+`. -/
theorem digit_ne_plus (x : String) (hx : ∀ c ∈ x.data, c.isDigit = true) :
    ∀ c ∈ x.data, c ≠ '+' := by
  intro c hc
  have := hx c hc
  rintro rfl
  simp at this

/-! ## Sorting facts for the aggregator -/

theorem costGe_trans : ∀ (a b c : String × Int),
    costGe a b = true → costGe b c = true → costGe a c = true := by
  intro a b c h1 h2
  simp [costGe] at h1 h2 ⊢
  omega

theorem costGe_total : ∀ (a b : String × Int), (costGe a b || costGe b a) = true := by
  intro a b
  simp [costGe]
  omega

/-! ## The claims -/

unseal List.merge List.mergeSort in
/-- Claim C1: the claim says `findMostExpensive` over an empty record
sequence (and over any log whose per-number totals are all 0) returns
nothing rather than failing.  The code violates the empty-sequence half:
`sorted(number_table.values(), ...)[0:2]` is empty for an empty log, so
`two_most_expensive[0]` raises an uncaught `IndexError`.  A nonempty log
whose only total is 0 (a single incoming call) does return `None`. -/
theorem C1_empty_log_crashes :
    findMostExpensiveNumber [] = .error .indexError ∧
    findMostExpensiveNumber ["07882456789,2019-08-29T11:28:05.666Z,12:36,INCOMING\n"]
      = .ok none := by
  decide

/-- Claim C2: the claim says classification never raises and everything
unmatched falls through to `Invalid`.  The code violates this on the
input `"07"`: the normalized number starts with `07`, so the mobile branch
evaluates `number[2]`, which raises an uncaught `IndexError` on the
two-character string (modelled as `none`).  A `076xx` number that is not
`07624` is indeed classified `Invalid`, as the claim states. -/
theorem C2_classifier_crashes_on_07 :
    PhoneNumber.from_string "07" = none ∧
    PhoneNumber.from_string "07655555555" = some ⟨.Invalid, "07655555555"⟩ := by
  decide

/-- Claim C3, counterexample: with all other fields valid, a direction
string that is neither `INCOMING` nor `OUTGOING` makes construction fail
with the enum's `ValueError` — not with the repository's typed
`CallParseError`, as the claim states.  `self.direction =
Direction(direction)` is the one parse step `PhoneCall.__init__` does not
wrap in a `try/except` that re-raises `CallParseError`. -/
theorem C3_counterexample :
    PhoneCall.init sampleNumber sampleStart "12:36" "SIDEWAYS" initialAllowances
      = .error .valueError ∧
    PyError.valueError ≠ PyError.callParseError := by
  decide

/-- Claim C3, amended: for every direction string that is not exactly
`INCOMING` or `OUTGOING` (other fields valid), constructing a CallRecord
fails — but with the direction enum's untyped `ValueError`, not with the
system's typed ParseError. -/
theorem C3_amended (d : String) (st : Allowances)
    (h1 : d ≠ "INCOMING") (h2 : d ≠ "OUTGOING") :
    PhoneCall.init sampleNumber sampleStart "12:36" d st = .error .valueError := by
  have hdur : parseDuration "12:36" = some 13 := by decide
  have hdir : Direction.ofValue d = none := by simp [Direction.ofValue, h1, h2]
  simp [PhoneCall.init, sampleNumber_classifies, sampleStart_parses, hdur, hdir]

/-- Claim C3, witness for the amended theorem at the concrete direction
string `NEITHER`. -/
theorem C3_witness :
    "NEITHER" ≠ "INCOMING" ∧ "NEITHER" ≠ "OUTGOING" ∧
    PhoneCall.init sampleNumber sampleStart "12:36" "NEITHER" initialAllowances
      = .error .valueError :=
  ⟨by decide, by decide, C3_amended "NEITHER" initialAllowances (by decide) (by decide)⟩

/-- Claim C4, counterexample: the duration string `-1:30` has a negative
minutes component, yet construction succeeds (Python `int()` accepts
signed integers), producing a duration of `-1 + 1 = 0` started minutes —
the claim says it must fail with ParseError. -/
theorem C4_counterexample :
    PhoneCall.init sampleNumber sampleStart "-1:30" "OUTGOING" initialAllowances
      = .ok (⟨sampleMobile, sampleDT, 0, .OUTGOING, some 0⟩, ⟨10, 100⟩) ∧
    PhoneCall.init sampleNumber sampleStart "-1:30" "OUTGOING" initialAllowances
      ≠ .error .callParseError := by
  decide

/-- Claim C4, amended: with the other fields valid, construction fails
with ParseError exactly when the duration string does not split on `:`
into exactly two components each accepted by Python's `int()` — which
also accepts signed integers, so negative minutes or seconds components
are accepted rather than rejected. -/
theorem C4_amended (dur : String) (st : Allowances) :
    PhoneCall.init sampleNumber sampleStart dur "OUTGOING" st = .error .callParseError
      ↔ parseDuration dur = none := by
  rcases hd : parseDuration dur with _ | d
  · simp [PhoneCall.init, sampleNumber_classifies, sampleStart_parses, hd]
  · simp [PhoneCall.init, sampleNumber_classifies, sampleStart_parses, hd,
      Direction.ofValue, sampleMobile]

/-- Claim C5: for an outgoing call whose category has an off-peak divisor,
the discount applies exactly when the start time-of-day is strictly
before 08:00 or strictly after 20:00 (microseconds since midnight; in
particular 20:00:00 exactly and 08:00:00 exactly are peak), and the
off-peak cost is the base cost integer-divided by the divisor truncating
toward zero (`Int.tdiv`; the code's floor division agrees because the
base cost is non-negative). -/
theorem C5_offpeak_window_and_truncating_division (c : PhoneCall) (f dv : Int)
    (hdir : c.direction = .OUTGOING)
    (hf : c.free_minutes = some f)
    (hdv : off_peak_divider c.number.cls = some dv)
    (hvalid : c.start_time.tod.Valid)
    (hbase : 0 ≤ connection_charge c.number.cls
      + (c.duration - f) * cost_per_minute c.number.cls) :
    c.cost true = some
      (if c.start_time.tod.toKey < peak_time_start.toKey
          ∨ peak_time_end.toKey < c.start_time.tod.toKey
       then Int.tdiv (connection_charge c.number.cls
          + (c.duration - f) * cost_per_minute c.number.cls) dv
       else connection_charge c.number.cls
          + (c.duration - f) * cost_per_minute c.number.cls) := by
  have hdv3 : dv = 3 := by
    rcases hc : c.number.cls <;> rw [hc] at hdv <;> simp [off_peak_divider] at hdv <;> omega
  have hcond : (timeLt c.start_time.tod peak_time_start
      ∨ timeLt peak_time_end c.start_time.tod)
      ↔ (c.start_time.tod.toKey < peak_time_start.toKey
        ∨ peak_time_end.toKey < c.start_time.tod.toKey) := by
    rw [timeLt_iff_toKey _ _ hvalid (by decide), timeLt_iff_toKey _ _ (by decide) hvalid]
  have hfd : Int.fdiv (connection_charge c.number.cls
      + (c.duration - f) * cost_per_minute c.number.cls) dv
      = Int.tdiv (connection_charge c.number.cls
      + (c.duration - f) * cost_per_minute c.number.cls) dv :=
    Int.fdiv_eq_tdiv hbase (by rw [hdv3]; decide)
  unfold PhoneCall.cost
  rw [if_neg (by rw [hdir]; simp)]
  simp only [hf, hdv, if_true]
  rw [← hfd]
  by_cases hc : timeLt c.start_time.tod peak_time_start ∨ timeLt peak_time_end c.start_time.tod
  · rw [if_pos hc, if_pos (hcond.mp hc)]
  · rw [if_neg hc, if_neg (fun hk => hc (hcond.mpr hk))]

/-- Claim C5, witness: a 13-minute outgoing mobile call starting at
20:00:01 (off-peak by one second).  Its cost evaluates to
`(0 + 13 * 30) tdiv 3 = 130`. -/
theorem C5_witness :
    PhoneCall.cost ⟨⟨.Mobile, "07882456789"⟩, ⟨2019, 8, 29, ⟨20, 0, 1, 0⟩⟩, 13,
        .OUTGOING, some 0⟩ true
      = some
        (if PyTime.toKey ⟨20, 0, 1, 0⟩ < peak_time_start.toKey
            ∨ peak_time_end.toKey < PyTime.toKey ⟨20, 0, 1, 0⟩
         then Int.tdiv (connection_charge .Mobile + (13 - 0) * cost_per_minute .Mobile) 3
         else connection_charge .Mobile + (13 - 0) * cost_per_minute .Mobile) ∧
    PhoneCall.cost ⟨⟨.Mobile, "07882456789"⟩, ⟨2019, 8, 29, ⟨20, 0, 1, 0⟩⟩, 13,
        .OUTGOING, some 0⟩ true = some 130 :=
  ⟨C5_offpeak_window_and_truncating_division
      ⟨⟨.Mobile, "07882456789"⟩, ⟨2019, 8, 29, ⟨20, 0, 1, 0⟩⟩, 13, .OUTGOING, some 0⟩
      0 3 rfl rfl rfl (by decide) (by decide),
    by decide⟩

/-- Claim C6: when the two highest per-number totals are equal (the table
has at least two entries carrying the maximal total `m`), the selection
returns nothing — even when further entries with strictly lower totals
exist.  After the descending sort both of the first two entries carry the
maximal total, so either the zero check or the tie check fires. -/
theorem C6_tie_returns_none (tbl : List (String × Int)) (m : Int)
    (hmax : ∀ e ∈ tbl, e.2 ≤ m)
    (hcnt : 2 ≤ tbl.countP fun e => decide (e.2 = m)) :
    selectMostExpensive tbl = .ok none := by
  set p : (String × Int) → Bool := fun e => decide (e.2 = m) with hp
  have hperm : (List.mergeSort tbl costGe).Perm tbl := List.mergeSort_perm tbl costGe
  have hsort : (List.mergeSort tbl costGe).Pairwise (fun a b => costGe a b = true) :=
    List.sorted_mergeSort costGe_trans costGe_total tbl
  have hcnt' : 2 ≤ (List.mergeSort tbl costGe).countP p := by
    rw [hperm.countP_eq]; exact hcnt
  have hlen : 2 ≤ (List.mergeSort tbl costGe).length :=
    le_trans hcnt' (List.countP_le_length p)
  rcases hms : List.mergeSort tbl costGe with _ | ⟨a, _ | ⟨b, t⟩⟩
  · rw [hms] at hlen; simp at hlen
  · rw [hms] at hlen; simp at hlen
  · rw [hms] at hperm hsort hcnt'
    have hmem_a : a ∈ tbl := hperm.mem_iff.mp (by simp)
    have hmem_b : b ∈ tbl := hperm.mem_iff.mp (by simp)
    have hsa : ∀ x ∈ b :: t, costGe a x = true := (List.pairwise_cons.mp hsort).1
    have hsb : ∀ x ∈ t, costGe b x = true :=
      (List.pairwise_cons.mp (List.pairwise_cons.mp hsort).2).1
    have ham : a.2 = m := by
      have hpos : 0 < (a :: b :: t).countP p := by omega
      have hex : ∃ x ∈ a :: b :: t, p x := List.countP_pos_iff.mp hpos
      obtain ⟨x, hx, hpx⟩ := hex
      have hxm : x.2 = m := by simpa [hp] using hpx
      rcases hx with _ | ⟨_, hx⟩
      · exact hxm
      · have := hsa x hx
        simp [costGe] at this
        have := hmax a hmem_a
        omega
    have hbm : b.2 = m := by
      have hstep : (a :: b :: t).countP p ≤ (b :: t).countP p + 1 := by
        rw [List.countP_cons]
        by_cases hpa : p a = true <;> simp [hpa]
      have hpos : 0 < (b :: t).countP p := by omega
      have hex : ∃ x ∈ b :: t, p x := List.countP_pos_iff.mp hpos
      obtain ⟨x, hx, hpx⟩ := hex
      have hxm : x.2 = m := by simpa [hp] using hpx
      rcases hx with _ | ⟨_, hx⟩
      · exact hxm
      · have := hsb x hx
        simp [costGe] at this
        have := hmax b hmem_b
        omega
    unfold selectMostExpensive
    rw [hms]
    show (match [a, b] with
      | [] => Except.error PyError.indexError
      | [a] => Except.ok (if a.2 = 0 then none else some a)
      | a :: b :: _ =>
        Except.ok (if a.2 = 0 then none else if a.2 = b.2 then none else some a)) = .ok none
    by_cases hz : a.2 = 0
    · simp [hz]
    · simp [hz, ham, hbm]

/-- Claim C6, witness: two entries tied at total 5 with a third strictly
lower entry at 3; the selection returns nothing. -/
theorem C6_witness :
    (∀ e ∈ [("a", (5 : Int)), ("b", 5), ("c", 3)], e.2 ≤ 5) ∧
    2 ≤ List.countP (fun e => decide (e.2 = 5)) [("a", (5 : Int)), ("b", 5), ("c", 3)] ∧
    selectMostExpensive [("a", (5 : Int)), ("b", 5), ("c", 3)] = .ok none :=
  ⟨by decide, by decide,
    C6_tie_returns_none [("a", (5 : Int)), ("b", 5), ("c", 3)] 5 (by decide) (by decide)⟩

/-- Claim C7, counterexample: constructing an incoming call leaves the
`free_minutes` attribute unassigned (the Python constructor sets it only
inside the outgoing branch), modelled as `none` — not the stored count 0
the claim describes.  The allowance counters are unchanged, as the claim
also states. -/
theorem C7_counterexample :
    PhoneCall.init sampleNumber sampleStart "12:36" "INCOMING" initialAllowances
      = .ok (⟨sampleMobile, sampleDT, 13, .INCOMING, none⟩, initialAllowances) ∧
    (none : Option Int) ≠ some 0 := by
  decide

/-- Claim C7, amended: for every successfully constructed Incoming
CallRecord, construction leaves the `free_minutes` attribute unset
(modelled `none`; reading it later would raise `AttributeError`, though
`cost` never does for incoming calls) and leaves both allowance counters
unchanged. -/
theorem C7_amended (n t d dir : String) (st : Allowances) (c : PhoneCall) (st' : Allowances)
    (h : PhoneCall.init n t d dir st = .ok (c, st'))
    (hdir : c.direction = .INCOMING) :
    c.free_minutes = none ∧ st' = st := by
  unfold PhoneCall.init at h
  split at h
  · exact absurd h (by simp)
  · split at h
    · exact absurd h (by simp)
    · split at h
      · exact absurd h (by simp)
      · split at h
        · exact absurd h (by simp)
        · rename_i num st0 dur dir0
          split at h
          · next hout =>
            split at h
            · rw [Except.ok.injEq, Prod.mk.injEq] at h
              obtain ⟨h1, h2⟩ := h
              subst h1
              rw [hout] at hdir
              exact absurd hdir (by simp)
            · split at h
              · rw [Except.ok.injEq, Prod.mk.injEq] at h
                obtain ⟨h1, h2⟩ := h
                subst h1
                rw [hout] at hdir
                exact absurd hdir (by simp)
              · rw [Except.ok.injEq, Prod.mk.injEq] at h
                obtain ⟨h1, h2⟩ := h
                subst h1
                rw [hout] at hdir
                exact absurd hdir (by simp)
          · rw [Except.ok.injEq, Prod.mk.injEq] at h
            obtain ⟨h1, h2⟩ := h
            subst h1
            exact ⟨rfl, h2.symm⟩

/-- Claim C7, witness for the amended theorem: the concrete incoming call
of `C7_counterexample`. -/
theorem C7_witness :
    (PhoneCall.mk sampleMobile sampleDT 13 .INCOMING none).free_minutes = none ∧
    initialAllowances = initialAllowances :=
  C7_amended sampleNumber sampleStart "12:36" "INCOMING" initialAllowances
    (PhoneCall.mk sampleMobile sampleDT 13 .INCOMING none) initialAllowances
    (by decide) rfl

/-- Claim C8: allowance depletion is order-sensitive and clamped.
Starting from the initial international allowance of 10, two sequential
International outgoing 6-minute calls receive 6 and then 4 free minutes;
the second call is left with `6 - 4 = 2` chargeable minutes and the
allowance is exhausted. -/
theorem C8_allowance_depletion_order :
    initialAllowances.international = 10 ∧
    ((PhoneCall.init "0011234565567" sampleStart "6:0" "OUTGOING" initialAllowances).bind
      fun p1 =>
        (PhoneCall.init "0011234565567" sampleStart "6:0" "OUTGOING" p1.2).map
          fun p2 =>
            (p1.1.free_minutes, p2.1.free_minutes,
              p2.1.duration - (p2.1.free_minutes.getD 0), p2.2.international))
      = .ok (some 6, some 4, 2, 0) := by
  decide

/-- Claim C9, counterexample: for the digit suffix `x = "044"`, the raw
inputs `0044044` and `+44044` both normalize to `0044` and classify
International, but the plain `0`-prefixed form `0044` is normalized a
second time from scratch when classified, collapsing to `0` and
classifying Invalid — so the claimed agreement with the plain national
form fails. -/
theorem C9_counterexample :
    PhoneNumber.from_string ("0044" ++ "044") = some ⟨.International, "0044"⟩ ∧
    PhoneNumber.from_string ("+44" ++ "044") = some ⟨.International, "0044"⟩ ∧
    PhoneNumber.from_string ("0" ++ "044") = some ⟨.Invalid, "0"⟩ ∧
    PhoneNumber.from_string ("0044" ++ "044") ≠ PhoneNumber.from_string ("0" ++ "044") := by
  decide

/-- Claim C9, amended: for every digit suffix `x`, the raw inputs `0044x`
and `+44x` normalize to the identical string `0x` and classify
identically to each other; and whenever `x` does not itself start with
`044`, their classification also matches that of the plain `0`-prefixed
national form `0x` (normalization collapses `0044` only once, so for `x`
starting with `044` the plain form normalizes further while `0044x` does
not). -/
theorem C9_amended (x : String) (hx : ∀ c ∈ x.data, c.isDigit = true) :
    normalize ("0044" ++ x) = "0" ++ x ∧
    normalize ("+44" ++ x) = "0" ++ x ∧
    PhoneNumber.from_string ("0044" ++ x) = PhoneNumber.from_string ("+44" ++ x) ∧
    (listStarts x.data "044".data = false →
      PhoneNumber.from_string ("0044" ++ x) = PhoneNumber.from_string ("0" ++ x)) := by
  have h1 : normalize ("0044" ++ x) = "0" ++ x := by
    have hrep : replaceChar '+' "00".data ("0044" ++ x).data = "0044".data ++ x.data := by
      show replaceChar '+' "00".data ("0044".data ++ x.data) = _
      rw [replaceChar_append]
      rw [replaceChar_of_forall_ne _ _ _ (digit_ne_plus x hx)]
      rfl
    unfold normalize pyReplace
    simp only [hrep]
    rw [if_pos (listStarts_append "0044".data x.data)]
    show String.mk ('0' :: List.drop 4 ("0044".data ++ x.data)) = "0" ++ x
    rw [show ("0044".data ++ x.data) = '0' :: '0' :: '4' :: '4' :: x.data from rfl]
    rfl
  have h2 : normalize ("+44" ++ x) = "0" ++ x := by
    have hrep : replaceChar '+' "00".data ("+44" ++ x).data = "0044".data ++ x.data := by
      show replaceChar '+' "00".data ('+' :: '4' :: '4' :: x.data) = _
      simp only [replaceChar, if_pos rfl]
      norm_num
      rw [replaceChar_of_forall_ne _ _ _ (digit_ne_plus x hx)]
      rfl
    unfold normalize pyReplace
    simp only [hrep]
    rw [if_pos (listStarts_append "0044".data x.data)]
    show String.mk ('0' :: List.drop 4 ("0044".data ++ x.data)) = "0" ++ x
    rw [show ("0044".data ++ x.data) = '0' :: '0' :: '4' :: '4' :: x.data from rfl]
    rfl
  refine ⟨h1, h2, ?_, ?_⟩
  · unfold PhoneNumber.from_string
    rw [h1, h2]
  · intro hpre
    have h3 : normalize ("0" ++ x) = "0" ++ x := by
      have hrep : replaceChar '+' "00".data ("0" ++ x).data = '0' :: x.data := by
        show replaceChar '+' "00".data ('0' :: x.data) = _
        simp only [replaceChar, if_neg (by decide : ¬ ('0' = '+'))]
        rw [replaceChar_of_forall_ne _ _ _ (digit_ne_plus x hx)]
      have hstart : listStarts ('0' :: x.data) "0044".data = false := by
        show (('0' = '0') && listStarts x.data "044".data) = false
        simp [hpre]
      unfold normalize pyReplace
      simp only [hrep]
      rw [if_neg (by simp [hstart])]
      rfl
    unfold PhoneNumber.from_string
    rw [h1, h3]

/-- Claim C9, witness for the amended theorem: instantiated at the
concrete digit suffix `1234565567` (not starting with `044`, so the
plain-form agreement fires) and, for the universal half alone, also at
the excluded suffix `0440` (starting with `044`). -/
theorem C9_witness :
    (∀ c ∈ ("1234565567" : String).data, c.isDigit = true) ∧
    (normalize ("0044" ++ "1234565567") = "0" ++ "1234565567" ∧
     normalize ("+44" ++ "1234565567") = "0" ++ "1234565567" ∧
     PhoneNumber.from_string ("0044" ++ "1234565567")
       = PhoneNumber.from_string ("+44" ++ "1234565567") ∧
     (listStarts ("1234565567" : String).data "044".data = false →
       PhoneNumber.from_string ("0044" ++ "1234565567")
         = PhoneNumber.from_string ("0" ++ "1234565567"))) ∧
    PhoneNumber.from_string ("0044" ++ "1234565567")
      = PhoneNumber.from_string ("0" ++ "1234565567") ∧
    PhoneNumber.from_string ("0044" ++ "0440")
      = PhoneNumber.from_string ("+44" ++ "0440") :=
  ⟨by decide, C9_amended "1234565567" (by decide),
    (C9_amended "1234565567" (by decide)).2.2.2 (by decide),
    (C9_amended "0440" (by decide)).2.2.1⟩

/-- Claim C10: the seconds component of a duration is not range-checked.
For any duration string `m:s` whose components are `int()`-parseable with
a positive seconds value `S` (including `S ≥ 60`), construction succeeds
(with otherwise-valid fields) and the stored billed duration is exactly
`M + 1` started minutes — excess seconds never add more than one
minute. -/
theorem C10_seconds_not_range_checked (m s : String) (M S : Int)
    (hm : pyInt m = some M) (hs : pyInt s = some S) (hS : 0 < S) (st : Allowances) :
    PhoneCall.init sampleNumber sampleStart (m ++ ":" ++ s) "INCOMING" st
      = .ok (⟨sampleMobile, sampleDT, M + 1, .INCOMING, none⟩, st) := by
  have hdur : parseDuration (m ++ ":" ++ s) = some (M + 1) := by
    rw [parseDuration_eq m s M S hm hs, if_pos (by omega)]
  simp [PhoneCall.init, sampleNumber_classifies, sampleStart_parses, hdur, Direction.ofValue]

/-- Claim C10, witness at the concrete duration `12:99`: 99 seconds are
accepted and bill as one extra started minute, 13 in total. -/
theorem C10_witness :
    pyInt "12" = some 12 ∧ pyInt "99" = some 99 ∧ (0 : Int) < 99 ∧
    PhoneCall.init sampleNumber sampleStart ("12" ++ ":" ++ "99") "INCOMING" initialAllowances
      = .ok (⟨sampleMobile, sampleDT, 12 + 1, .INCOMING, none⟩, initialAllowances) :=
  ⟨by decide, by decide, by decide,
    C10_seconds_not_range_checked "12" "99" 12 99 (by decide) (by decide) (by decide)
      initialAllowances⟩

end PhoneNumbers
